import Mathlib

/-!
# Verification of `aws_xray_sdk/core/patcher.py`

A shallow embedding of the patching engine of the aws-xray-sdk repository
(file `aws_xray_sdk/core/patcher.py`) together with theorems about its
behaviour.

The Python module is stateful (a process-wide set `_PATCHED_MODULES`, a log of
`wrapt.wrap_function_wrapper` registrations, invocations of per-library
adapters) and interacts with the host interpreter (module loaders, file
reading, AST parsing).  We model:

* the mutable state as an explicit `PatchState` record threaded through every
  operation (the registry list, the trace of adapter invocations, the trace of
  wrap registrations);
* the host interpreter as a record `Host` of oracles (`pkgutil.get_loader`,
  `pkgutil.iter_modules`, importing-and-running a native adapter, and
  reading-and-parsing a source file), each of which may fail, mirroring a
  raised Python exception, via `Except`;
* a raised exception propagating out of a function as an `Except.error`
  result paired with the state as mutated so far — exactly the Python
  semantics, in which side effects performed before a raise persist;
* Python's bounded call stack by a `fuel` argument on the one recursive
  function (`_external_recursive_patch`); exhausted fuel is Python's
  `RecursionError`.

All definitions are translated from the source file.  The two exceptions,
clearly marked in their doc comments, are `capture` (the tracing
collaborator `xray_recorder.capture`, which lives outside the provided
source and is modelled from the specification) and `substTargets` (the
specification-side description of the dependency substitution table, used
only to compare the source's resolver against the spec's words).
-/

/-- A Python exception value. `unsupported mods` is the aggregated
`Exception('modules … are currently not supported for patching')` raised by
`patch`, carrying the offending module list; `hostErr` is any exception
raised by the host interpreter (import machinery, adapters, file I/O,
parsing, `RecursionError`). -/
inductive Err where
  | unsupported (mods : List String)
  | hostErr (msg : String)
deriving DecidableEq, Repr

/-- A module loader object as returned by `pkgutil.get_loader` and yielded by
`pkgutil.iter_modules`; the source only ever reads its `path` attribute. -/
structure Loader where
  path : String
deriving DecidableEq, Repr

/-- The mutable state of the patcher module:
* `patchedModules` — the process-wide registry `_PATCHED_MODULES` (a Python
  set, modelled as a duplicate-free list);
* `adapterCalls` — the trace of native adapter units imported and run by
  `_patch` (each entry is the dotted path `aws_xray_sdk.ext.<module>`);
* `wrapped` — the trace of `wrapt.wrap_function_wrapper(module, name, …)`
  registrations performed by the AST visitor, as `(module, qualified name)`
  pairs. -/
structure PatchState where
  patchedModules : List String
  adapterCalls : List String
  wrapped : List (String × String)
deriving DecidableEq, Repr

/-- The initial state of a fresh process: `_PATCHED_MODULES = set()` and
empty traces. -/
def initState : PatchState := ⟨[], [], []⟩

/-- A Python statement as far as the AST visitor distinguishes statements:
a `def` (whose body the visitor never enters), a `class` (whose body is
visited with the class-name context set), or any other node with children
(visited generically). -/
inductive PyStmt where
  | functionDef (name : String) (body : List PyStmt)
  | classDef (name : String) (body : List PyStmt)
  | other (children : List PyStmt)
deriving Repr

/-- The host interpreter, as seen by the patcher:
* `getLoader p` models `pkgutil.get_loader(p)`: it may raise (`error`),
  find no loader (`ok none`, Python `None`), or return a loader;
* `iterModules l` models `pkgutil.iter_modules([l])`: the finite list of
  `(module_finder, name, ispkg)` triples it yields;
* `adapterPatch p` models `importlib.import_module(p)` followed by
  `imported_module.patch()` for a native adapter path `p`; either step may
  raise;
* `readParse f` models `ast.parse(open(f).read())`: opening, reading and
  parsing may raise; on success it yields the module's statement list. -/
structure Host where
  getLoader : String → Except Err (Option Loader)
  iterModules : Option Loader → List (Loader × String × Bool)
  adapterPatch : String → Except Err Unit
  readParse : String → Except Err (List PyStmt)

/-- `SUPPORTED_MODULES` from the source. -/
def SUPPORTED_MODULES : List String :=
  ["botocore", "pynamodb", "requests", "sqlite3", "mysql", "httplib",
   "pymongo", "psycopg2"]

/-- `NO_DOUBLE_PATCH` from the source. -/
def NO_DOUBLE_PATCH : List String :=
  ["botocore", "pynamodb", "requests", "sqlite3", "mysql", "pymongo",
   "psycopg2"]

/-- `_is_valid_import(path)` = `bool(pkgutil.get_loader(path))`.  The source
has no exception handler here: if `pkgutil.get_loader` raises, the error
propagates to the caller.  `bool(loader)` is `False` exactly on `None`. -/
def _is_valid_import (host : Host) (path : String) : Except Err Bool :=
  match host.getLoader path with
  | .error e => .error e
  | .ok l => .ok l.isSome

/-- Adding an element to a Python set, modelled on duplicate-free lists:
`s.add(x)` is a no-op when `x` is already a member. -/
def insertSet (l : List String) (x : String) : List String :=
  if l.contains x then l else l ++ [x]

/-- One iteration of the name-resolution loop at the top of `patch`:
`boto3` contributes `botocore`, `pynamodb` contributes `botocore` and
itself, every other name contributes itself. -/
def resolveStep (modules : List String) (module_to_patch : String) : List String :=
  if module_to_patch = "boto3" then insertSet modules "botocore"
  else if module_to_patch = "pynamodb" then
    insertSet (insertSet modules "botocore") module_to_patch
  else insertSet modules module_to_patch

/-- The full resolution loop of `patch`: fold `resolveStep` over the
requested names starting from the empty set. -/
def resolveModules (modules_to_patch : List String) : List String :=
  modules_to_patch.foldl resolveStep []

/-- Spec-side description of the Dependency Substitution Table, written from
the specification's words ("maps 'boto3' to the single identifier 'botocore',
maps 'pynamodb' to the two identifiers 'botocore' and 'pynamodb', and maps
every other name to itself"), for comparison with the source's resolver. -/
def substTargets (n : String) : List String :=
  if n = "boto3" then ["botocore"]
  else if n = "pynamodb" then ["botocore", "pynamodb"]
  else [n]

/-- `modules - set(SUPPORTED_MODULES)` in `patch`: the resolved identifiers
with no native adapter, before the importability probe. -/
def candidateExternals (modules_to_patch : List String) : List String :=
  (resolveModules modules_to_patch).filter
    (fun m => ¬ SUPPORTED_MODULES.contains m)

/-- `native_modules = modules - unsupported_modules` in `patch`: the resolved
identifiers present in `SUPPORTED_MODULES`. -/
def nativeModules (modules_to_patch : List String) : List String :=
  (resolveModules modules_to_patch).filter
    (fun m => SUPPORTED_MODULES.contains m)

/-- The probe comprehension of `patch`:
`set(m for m in unsupported_modules if _is_valid_import(m.replace('.', '/')))`.
Elements are probed left to right; a raise inside the probe aborts the whole
comprehension and propagates. -/
def filterValid (host : Host) : List String → Except Err (List String)
  | [] => .ok []
  | m :: rest =>
    match _is_valid_import host (m.replace "." "/") with
    | .error e => .error e
    | .ok b =>
      match filterValid host rest with
      | .error e => .error e
      | .ok r => .ok (if b then m :: r else r)

/-- `_patch(module_to_patch)`: skip when the module is already in the
registry; otherwise import the adapter unit `aws_xray_sdk.ext.<module>` and
run its `patch()` (recorded in `adapterCalls`; a raise from either step
propagates with the registry untouched), then add the module to the
registry. -/
def _patch (host : Host) (module_to_patch : String) (s : PatchState) :
    Except Err Unit × PatchState :=
  let path := "aws_xray_sdk.ext." ++ module_to_patch
  if s.patchedModules.contains module_to_patch then
    (.ok (), s)
  else
    match host.adapterPatch path with
    | .error e => (.error e, { s with adapterCalls := s.adapterCalls ++ [path] })
    | .ok _ =>
      (.ok (), { s with
        adapterCalls := s.adapterCalls ++ [path],
        patchedModules := insertSet s.patchedModules module_to_patch })

/-- `_patch_module(module_to_patch, raise_errors)`: run `_patch`; on a raise,
re-raise when `raise_errors` and otherwise swallow it (logging at debug
level). -/
def _patch_module (host : Host) (module_to_patch : String) (raise_errors : Bool)
    (s : PatchState) : Except Err Unit × PatchState :=
  match _patch host module_to_patch s with
  | (.error e, s') => if raise_errors then (.error e, s') else (.ok (), s')
  | (.ok _, s') => (.ok (), s')

/-- The `for m in native_modules: _patch_module(m, raise_errors)` loop of
`patch`: a raise escaping `_patch_module` aborts the loop and propagates. -/
def patchNatives (host : Host) (raise_errors : Bool) :
    List String → PatchState → Except Err Unit × PatchState
  | [], s => (.ok (), s)
  | m :: rest, s =>
    match _patch_module host m raise_errors s with
    | (.error e, s') => (.error e, s')
    | (.ok _, s') => patchNatives host raise_errors rest s'

/-- The outcome of calling a Python callable: a returned value or a raised
exception. -/
inductive CallResult (β : Type) where
  | ret (v : β)
  | exn (e : Err)
deriving DecidableEq, Repr

/-- Whether a call outcome is a raised exception. -/
def CallResult.isExn {β : Type} : CallResult β → Bool
  | .ret _ => false
  | .exn _ => true

/-- A span lifecycle event emitted by the tracing collaborator. -/
inductive TraceEvent where
  | openSpan (name : String)
  | closeSpan (name : String) (hadError : Bool)
deriving DecidableEq, Repr

/-- Modelled from the spec: `xray_recorder.capture(name)` — the tracing
collaborator of §6, which lives outside the provided source file
(`aws_xray_sdk/core/recorder.py` is not part of it).  Used as a context
manager it starts a new span with the given name, runs the body, and closes
the span whether the body returns or raises; a return value is passed
through unchanged and a raised error is re-raised unchanged after the span
is closed with an error indicator.  The returned event list is the span
activity caused by the call. -/
def capture {β : Type} (name : String) (body : Unit → CallResult β) :
    CallResult β × List TraceEvent :=
  match body () with
  | .ret v => (.ret v, [.openSpan name, .closeSpan name false])
  | .exn e => (.exn e, [.openSpan name, .closeSpan name true])

/-- `_xray_traced(wrapped, instance, args, kwargs)`: run the original
callable inside `xray_recorder.capture(name=wrapped.__name__)` and return
its result.  The callable is modelled as a function from its (bundled)
arguments to a `CallResult`; `wrappedName` is `wrapped.__name__`. -/
def _xray_traced {α β : Type} (wrappedName : String) (wrapped : α → CallResult β)
    (args : α) : CallResult β × List TraceEvent :=
  capture wrappedName (fun _ => wrapped args)

mutual
/-- One `visit` dispatch of `XRayPatcherVisitor` on a statement, given the
current `_current_class` context.  Returns the context left behind in the
visitor and the `wrap_function_wrapper` registrations performed:
* `visit_FunctionDef` registers `<class>.<name>` when a class context is
  set and the bare `<name>` otherwise, and does not descend into the body;
* `visit_ClassDef` sets the context to the class name, generically visits
  the children, then resets the context to `None` (not to any saved outer
  value);
* any other node is generically visited (children in order, context
  threaded through). -/
def visitStmt (module : String) (cur : Option String) :
    PyStmt → Option String × List (String × String)
  | .functionDef name _body =>
    let qual := match cur with
      | some c => c ++ "." ++ name
      | none => name
    (cur, [(module, qual)])
  | .classDef name body =>
    let r := visitStmts module (some name) body
    (none, r.2)
  | .other children => visitStmts module cur children

/-- Sequential `visit` of a list of child statements, threading the
visitor's `_current_class` field through and concatenating the
registrations. -/
def visitStmts (module : String) (cur : Option String) :
    List PyStmt → Option String × List (String × String)
  | [] => (cur, [])
  | st :: rest =>
    let r := visitStmt module cur st
    let r' := visitStmts module r.1 rest
    (r'.1, r.2 ++ r'.2)
end

/-- `_patch_file(module, f)`: skip when the module is already in the
registry; otherwise read and parse the file `f` (a raise propagates with
the registry untouched), run `XRayPatcherVisitor(module)` over the tree
(recording its wrap registrations), and add the module to the registry. -/
def _patch_file (host : Host) (module : String) (f : String) (s : PatchState) :
    Except Err Unit × PatchState :=
  if s.patchedModules.contains module then
    (.ok (), s)
  else
    match host.readParse f with
    | .error e => (.error e, s)
    | .ok tree =>
      let r := visitStmts module none tree
      (.ok (), { s with
        wrapped := s.wrapped ++ r.2,
        patchedModules := insertSet s.patchedModules module })

/-- The `module_path` default at the top of `_external_recursive_patch`:
`if not module_path: module_path = module.replace('.', '/')` — Python's
`not` is true on both `None` and the empty string. -/
def modulePathOf (module : String) : Option String → String
  | none => module.replace "." "/"
  | some p => if p = "" then module.replace "." "/" else p

/-- The submodule loop of `_external_recursive_patch`, generic in the body
applied to each `(loader, submodule, ispkg)` triple: thread the state,
remember the loader of the last processed entry (`latest_loader`), and let
a raise from the body abort the loop and propagate. -/
def runLoop (step : Loader × String × Bool → PatchState → Except Err Unit × PatchState) :
    List (Loader × String × Bool) → Option Loader → PatchState →
    Except Err (Option Loader) × PatchState
  | [], latest, s => (.ok latest, s)
  | e :: rest, _, s =>
    match step e s with
    | (.error err, s') => (.error err, s')
    | (.ok _, s') => runLoop step rest (some e.1) s'

/-- `_external_recursive_patch(module, module_path=None)`: default the path,
look up the module's loader (`pkgutil.get_loader(module_path)`; a raise
propagates), iterate `pkgutil.iter_modules` over it, recursing into each
entry with `ispkg` true and statically scanning the file of each plain
module (`<path>.py`), and finally — only when the loop yielded at least one
entry, so `latest_loader` is not `None` — scan the module's own
`<latest_loader.path>/__init__.py` under the identifier `module`.  `fuel`
bounds the recursion depth exactly as Python's call stack does; running out
is a `RecursionError`. -/
def _external_recursive_patch (host : Host) :
    Nat → String → Option String → PatchState → Except Err Unit × PatchState
  | 0, _module, _module_path, s => (.error (.hostErr "RecursionError"), s)
  | Nat.succ fuel, module, module_path, s =>
    let mpath := modulePathOf module module_path
    match host.getLoader mpath with
    | .error e => (.error e, s)
    | .ok optL =>
      let body : Loader × String × Bool → PatchState → Except Err Unit × PatchState :=
        fun entry s =>
          let loader := entry.1
          let submodule := entry.2.1
          let is_module := entry.2.2
          let submod := loader.path ++ "." ++ submodule
          let submodule_path := loader.path ++ "/" ++ submodule
          if is_module then
            _external_recursive_patch host fuel submod (some submodule_path) s
          else
            _patch_file host submod (submodule_path ++ ".py") s
      match runLoop body (host.iterModules optL) none s with
      | (.error e, s') => (.error e, s')
      | (.ok latest, s') =>
        match latest with
        | none => (.ok (), s')
        | some l => _patch_file host module (l.path ++ "/__init__.py") s'

/-- The `for m in external_modules: _external_recursive_patch(m)` loop of
`patch`: a raise aborts the loop and propagates. -/
def patchExternals (host : Host) (fuel : Nat) :
    List String → PatchState → Except Err Unit × PatchState
  | [], s => (.ok (), s)
  | m :: rest, s =>
    match _external_recursive_patch host fuel m none s with
    | (.error e, s') => (.error e, s')
    | (.ok _, s') => patchExternals host fuel rest s'

/-- `patch(modules_to_patch, raise_errors=True)`: resolve the requested
names, split off the natively supported ones, probe the remainder for
importability (a raise in the probe propagates with nothing patched), raise
one aggregated `Exception` naming every identifier that is neither native
nor importable — before anything is patched — and otherwise dispatch the
native identifiers to `_patch_module` and the external ones to
`_external_recursive_patch`. -/
def patch (host : Host) (fuel : Nat) (modules_to_patch : List String)
    (raise_errors : Bool) (s : PatchState) : Except Err Unit × PatchState :=
  match filterValid host (candidateExternals modules_to_patch) with
  | .error e => (.error e, s)
  | .ok external_modules =>
    let unsupported_modules :=
      (candidateExternals modules_to_patch).filter
        (fun m => ¬ external_modules.contains m)
    if unsupported_modules ≠ [] then
      (.error (.unsupported unsupported_modules), s)
    else
      match patchNatives host raise_errors (nativeModules modules_to_patch) s with
      | (.error e, s') => (.error e, s')
      | (.ok _, s') => patchExternals host fuel external_modules s'

/-- `patch_all(double_patch=False)`: patch the default catalog
(`SUPPORTED_MODULES` or `NO_DOUBLE_PATCH`) with `raise_errors=False`. -/
def patch_all (host : Host) (fuel : Nat) (double_patch : Bool)
    (s : PatchState) : Except Err Unit × PatchState :=
  if double_patch then patch host fuel SUPPORTED_MODULES false s
  else patch host fuel NO_DOUBLE_PATCH false s

/-- The body of the submodule loop of `_external_recursive_patch`, with the
recursion depth available to the nested recursive call made explicit. -/
def extStep (host : Host) (fuel : Nat) (entry : Loader × String × Bool)
    (s : PatchState) : Except Err Unit × PatchState :=
  let loader := entry.1
  let submodule := entry.2.1
  let is_module := entry.2.2
  let submod := loader.path ++ "." ++ submodule
  let submodule_path := loader.path ++ "/" ++ submodule
  if is_module then
    _external_recursive_patch host fuel submod (some submodule_path) s
  else
    _patch_file host submod (submodule_path ++ ".py") s

/-- A concrete host for evaluation: no name has a loader, every native
adapter import-and-patch succeeds except the `sqlite3` adapter (whose
import-and-patch raises), and every file fails to parse. -/
def hostDemo : Host where
  getLoader := fun _ => .ok none
  iterModules := fun _ => []
  adapterPatch := fun p =>
    if p = "aws_xray_sdk.ext.sqlite3" then .error (.hostErr "ImportError")
    else .ok ()
  readParse := fun _ => .error (.hostErr "SyntaxError")

/-- A concrete host whose module-location machinery raises on every
lookup. -/
def hostProbeRaises : Host where
  getLoader := fun _ => .error (.hostErr "boom")
  iterModules := fun _ => []
  adapterPatch := fun _ => .ok ()
  readParse := fun _ => .ok []

/-- A concrete host on which every name has a loader but no module has any
submodule. -/
def hostEmptyPkg : Host where
  getLoader := fun p => .ok (some ⟨p⟩)
  iterModules := fun _ => []
  adapterPatch := fun _ => .ok ()
  readParse := fun _ => .ok []

/-- A concrete host presenting a package `pkg` with exactly one plain
submodule `pkg/sub.py`; every source file on this host parses to a single
top-level function definition `f`. -/
def hostPkg : Host where
  getLoader := fun p => .ok (some ⟨p⟩)
  iterModules := fun optL =>
    match optL with
    | some l => if l.path = "pkg" then [(⟨"pkg"⟩, "sub", false)] else []
    | none => []
  adapterPatch := fun _ => .ok ()
  readParse := fun _ => .ok [PyStmt.functionDef "f" []]

lemma mem_insertSet {l : List String} {x y : String} :
    y ∈ insertSet l x ↔ y ∈ l ∨ y = x := by
  unfold insertSet
  split
  · next hc =>
    simp only [List.elem_iff] at hc
    constructor
    · exact Or.inl
    · rintro (h | rfl)
      · exact h
      · exact hc
  · simp

lemma self_mem_insertSet {l : List String} {x : String} : x ∈ insertSet l x :=
  mem_insertSet.mpr (Or.inr rfl)

lemma subset_insertSet {l : List String} {x : String} : l ⊆ insertSet l x :=
  fun _ h => mem_insertSet.mpr (Or.inl h)

lemma nodup_insertSet {l : List String} {x : String} (h : l.Nodup) :
    (insertSet l x).Nodup := by
  unfold insertSet
  split
  · exact h
  · next hc =>
    refine List.Nodup.append h (List.nodup_singleton x) ?_
    intro a ha hb
    simp at hb
    subst hb
    exact hc (List.elem_iff.mpr ha)

lemma mem_resolveStep {acc : List String} {n y : String} :
    y ∈ resolveStep acc n ↔ y ∈ acc ∨ y ∈ substTargets n := by
  unfold resolveStep substTargets
  split
  · simp [mem_insertSet]
  · split
    · next h2 =>
      subst h2
      simp [mem_insertSet]
      tauto
    · simp [mem_insertSet]

lemma nodup_resolveStep {acc : List String} {n : String} (h : acc.Nodup) :
    (resolveStep acc n).Nodup := by
  unfold resolveStep
  split
  · exact nodup_insertSet h
  · split
    · exact nodup_insertSet (nodup_insertSet h)
    · exact nodup_insertSet h

lemma mem_foldl_resolveStep {y : String} :
    ∀ (ns acc : List String),
      y ∈ ns.foldl resolveStep acc ↔ y ∈ acc ∨ ∃ n ∈ ns, y ∈ substTargets n
  | [], acc => by simp
  | n :: rest, acc => by
    rw [List.foldl_cons, mem_foldl_resolveStep rest, mem_resolveStep]
    constructor
    · rintro ((h | h) | ⟨n', hn', h⟩)
      · exact Or.inl h
      · exact Or.inr ⟨n, List.mem_cons_self n rest, h⟩
      · exact Or.inr ⟨n', List.mem_cons_of_mem n hn', h⟩
    · rintro (h | ⟨n', hn', h⟩)
      · exact Or.inl (Or.inl h)
      · rcases List.mem_cons.mp hn' with rfl | hn'
        · exact Or.inl (Or.inr h)
        · exact Or.inr ⟨n', hn', h⟩

lemma nodup_foldl_resolveStep :
    ∀ (ns acc : List String), acc.Nodup → (ns.foldl resolveStep acc).Nodup
  | [], _, h => h
  | _ :: rest, acc, h =>
    nodup_foldl_resolveStep rest (resolveStep acc _) (nodup_resolveStep h)

lemma mem_resolveModules {names : List String} {m : String} :
    m ∈ resolveModules names ↔ ∃ n ∈ names, m ∈ substTargets n := by
  unfold resolveModules
  rw [mem_foldl_resolveStep]
  simp

lemma patch_registry_subset (host : Host) (m : String) (s : PatchState) :
    s.patchedModules ⊆ ((_patch host m s).2).patchedModules := by
  simp only [_patch]
  split
  · exact fun _ h => h
  · cases hap : host.adapterPatch ("aws_xray_sdk.ext." ++ m) with
    | error e => simp
    | ok u => simpa using subset_insertSet

lemma patch_registry_mem (host : Host) {m : String} {s : PatchState} {y : String} :
    y ∈ ((_patch host m s).2).patchedModules →
    y ∈ s.patchedModules ∨
      (y = m ∧ host.adapterPatch ("aws_xray_sdk.ext." ++ m) = .ok ()) := by
  simp only [_patch]
  split
  · exact Or.inl
  · cases hap : host.adapterPatch ("aws_xray_sdk.ext." ++ m) with
    | error e => exact fun h => Or.inl h
    | ok u =>
      cases u
      intro h
      simp only at h
      rcases mem_insertSet.mp h with h | rfl
      · exact Or.inl h
      · exact Or.inr ⟨rfl, rfl⟩

lemma patch_ok_mem (host : Host) {m : String} (s : PatchState)
    (hap : host.adapterPatch ("aws_xray_sdk.ext." ++ m) = .ok ()) :
    m ∈ ((_patch host m s).2).patchedModules := by
  simp only [_patch]
  split
  · next hc => exact List.elem_iff.mp hc
  · rw [hap]
    simpa using self_mem_insertSet

lemma patch_error_registry_eq (host : Host) {m : String} {s : PatchState}
    {e : Err} {s' : PatchState} (h : _patch host m s = (.error e, s')) :
    s'.patchedModules = s.patchedModules := by
  simp only [_patch] at h
  split at h
  · simp at h
  · cases hap : host.adapterPatch ("aws_xray_sdk.ext." ++ m) with
    | error e2 =>
      rw [hap] at h
      simp only [Prod.mk.injEq] at h
      rw [← h.2]
    | ok u =>
      rw [hap] at h
      simp at h

lemma patch_module_registry_subset (host : Host) (m : String) (re : Bool)
    (s : PatchState) :
    s.patchedModules ⊆ ((_patch_module host m re s).2).patchedModules := by
  simp only [_patch_module]
  rcases h : _patch host m s with ⟨r, s'⟩
  have hsub := patch_registry_subset host m s
  rw [h] at hsub
  cases r with
  | error e =>
    dsimp only
    split <;> exact hsub
  | ok u => exact hsub

lemma patch_module_registry_mem (host : Host) {m : String} {re : Bool}
    {s : PatchState} {y : String} :
    y ∈ ((_patch_module host m re s).2).patchedModules →
    y ∈ s.patchedModules ∨
      (y = m ∧ host.adapterPatch ("aws_xray_sdk.ext." ++ m) = .ok ()) := by
  simp only [_patch_module]
  rcases h : _patch host m s with ⟨r, s'⟩
  have hmem := @patch_registry_mem host m s y
  rw [h] at hmem
  cases r with
  | error e =>
    dsimp only
    split <;> exact hmem
  | ok u => exact hmem

lemma patch_module_false_ok (host : Host) (m : String) (s : PatchState) :
    (_patch_module host m false s).1 = .ok () := by
  simp only [_patch_module]
  rcases h : _patch host m s with ⟨r, s'⟩
  cases r <;> simp

lemma patch_module_false_state (host : Host) (m : String) (s : PatchState) :
    (_patch_module host m false s).2 = (_patch host m s).2 := by
  simp only [_patch_module]
  rcases h : _patch host m s with ⟨r, s'⟩
  cases r <;> simp

lemma patch_natives_registry_subset (host : Host) (re : Bool) :
    ∀ (l : List String) (s : PatchState),
      s.patchedModules ⊆ ((patchNatives host re l s).2).patchedModules
  | [], _ => fun _ h => h
  | m :: rest, s => by
    simp only [patchNatives]
    rcases h : _patch_module host m re s with ⟨r, s'⟩
    have hsub := patch_module_registry_subset host m re s
    rw [h] at hsub
    cases r with
    | error e => exact hsub
    | ok u =>
      exact fun y hy => patch_natives_registry_subset host re rest s' (hsub hy)

lemma patch_natives_false_ok (host : Host) :
    ∀ (l : List String) (s : PatchState),
      (patchNatives host false l s).1 = .ok ()
  | [], _ => rfl
  | m :: rest, s => by
    simp only [patchNatives]
    rcases h : _patch_module host m false s with ⟨r, s'⟩
    have hok := patch_module_false_ok host m s
    rw [h] at hok
    simp only at hok
    subst hok
    exact patch_natives_false_ok host rest s'

lemma patch_natives_mem_of_ok (host : Host) {m : String}
    (hap : host.adapterPatch ("aws_xray_sdk.ext." ++ m) = .ok ()) :
    ∀ (l : List String) (s : PatchState), m ∈ l →
      m ∈ ((patchNatives host false l s).2).patchedModules
  | [], _, hm => absurd hm (List.not_mem_nil m)
  | x :: rest, s, hm => by
    simp only [patchNatives]
    rcases h : _patch_module host x false s with ⟨r, s'⟩
    have hok := patch_module_false_ok host x s
    rw [h] at hok
    simp only at hok
    subst hok
    rcases List.mem_cons.mp hm with rfl | hm
    · have hst := patch_module_false_state host m s
      rw [h] at hst
      simp only at hst
      have h1 : m ∈ s'.patchedModules := by
        rw [hst]
        exact patch_ok_mem host s hap
      exact patch_natives_registry_subset host false rest s' h1
    · exact patch_natives_mem_of_ok host hap rest s' hm

lemma patch_natives_registry_mem (host : Host) {re : Bool} {y : String} :
    ∀ (l : List String) (s : PatchState),
      y ∈ ((patchNatives host re l s).2).patchedModules →
      y ∈ s.patchedModules ∨
        host.adapterPatch ("aws_xray_sdk.ext." ++ y) = .ok ()
  | [], _, h => Or.inl h
  | x :: rest, s, h => by
    rw [patchNatives] at h
    rcases hx : _patch_module host x re s with ⟨r, s'⟩
    rw [hx] at h
    have hchar : ∀ z, z ∈ s'.patchedModules →
        z ∈ s.patchedModules ∨
          (z = x ∧ host.adapterPatch ("aws_xray_sdk.ext." ++ x) = .ok ()) := by
      intro z
      have := @patch_module_registry_mem host x re s z
      rw [hx] at this
      exact this
    cases r with
    | error e =>
      simp only at h
      rcases hchar y h with h'' | ⟨rfl, h''⟩
      · exact Or.inl h''
      · exact Or.inr h''
    | ok u =>
      simp only at h
      rcases patch_natives_registry_mem host rest s' h with h' | h'
      · rcases hchar y h' with h'' | ⟨rfl, h''⟩
        · exact Or.inl h''
        · exact Or.inr h''
      · exact Or.inr h'

lemma patch_file_registry_subset (host : Host) (m f : String) (s : PatchState) :
    s.patchedModules ⊆ ((_patch_file host m f s).2).patchedModules := by
  simp only [_patch_file]
  split
  · exact fun _ h => h
  · cases hrp : host.readParse f with
    | error e => exact fun _ h => h
    | ok tree => simpa using subset_insertSet

lemma patch_file_ok_mem (host : Host) {m f : String} {s : PatchState}
    {u : Unit} {s' : PatchState} (h : _patch_file host m f s = (.ok u, s')) :
    m ∈ s'.patchedModules := by
  simp only [_patch_file] at h
  split at h
  · next hc =>
    simp only [Prod.mk.injEq] at h
    rw [← h.2]
    exact List.elem_iff.mp hc
  · cases hrp : host.readParse f with
    | error e =>
      rw [hrp] at h
      simp at h
    | ok tree =>
      rw [hrp] at h
      simp only [Prod.mk.injEq] at h
      rw [← h.2]
      exact self_mem_insertSet

lemma patch_file_error_state_eq (host : Host) {m f : String} {s : PatchState}
    {e : Err} {s' : PatchState} (h : _patch_file host m f s = (.error e, s')) :
    s' = s := by
  simp only [_patch_file] at h
  split at h
  · simp at h
  · cases hrp : host.readParse f with
    | error e2 =>
      rw [hrp] at h
      simp only [Prod.mk.injEq] at h
      rw [← h.2]
    | ok tree =>
      rw [hrp] at h
      simp at h

lemma run_loop_registry_subset
    (step : Loader × String × Bool → PatchState → Except Err Unit × PatchState)
    (hmono : ∀ e t, t.patchedModules ⊆ ((step e t).2).patchedModules) :
    ∀ (es : List (Loader × String × Bool)) (latest : Option Loader)
      (s : PatchState),
      s.patchedModules ⊆ ((runLoop step es latest s).2).patchedModules
  | [], _, _ => fun _ h => h
  | e :: rest, latest, s => by
    simp only [runLoop]
    rcases h : step e s with ⟨r, s'⟩
    have hs := hmono e s
    rw [h] at hs
    cases r with
    | error err => exact hs
    | ok u =>
      exact fun y hy =>
        run_loop_registry_subset step hmono rest (some e.1) s' (hs hy)

lemma run_loop_some_latest
    (step : Loader × String × Bool → PatchState → Except Err Unit × PatchState) :
    ∀ (es : List (Loader × String × Bool)) (l : Loader) (s : PatchState)
      {latest : Option Loader} {s₁ : PatchState},
      runLoop step es (some l) s = (.ok latest, s₁) →
      ∃ l2, latest = some l2
  | [], l, s, latest, s₁ => by
    simp only [runLoop, Prod.mk.injEq]
    rintro ⟨h, -⟩
    exact ⟨l, ((Except.ok.injEq _ _).mp h).symm⟩
  | e :: rest, l, s, latest, s₁ => by
    simp only [runLoop]
    rcases h : step e s with ⟨r, s'⟩
    cases r with
    | error err => simp
    | ok u => exact fun h2 => run_loop_some_latest step rest e.1 s' h2

lemma run_loop_nonempty_latest
    (step : Loader × String × Bool → PatchState → Except Err Unit × PatchState)
    {e : Loader × String × Bool} {es : List (Loader × String × Bool)}
    {latest0 latest : Option Loader} {s s₁ : PatchState}
    (h : runLoop step (e :: es) latest0 s = (.ok latest, s₁)) :
    ∃ l2, latest = some l2 := by
  rw [runLoop] at h
  rcases hx : step e s with ⟨r, s'⟩
  rw [hx] at h
  cases r with
  | error err => simp at h
  | ok u => exact run_loop_some_latest step es e.1 s' h

lemma run_loop_marks
    (step : Loader × String × Bool → PatchState → Except Err Unit × PatchState)
    (hmono : ∀ e t, t.patchedModules ⊆ ((step e t).2).patchedModules)
    (x : Loader × String × Bool → String)
    (P : Loader × String × Bool → Prop)
    (hstep : ∀ e t s'', P e → step e t = (.ok (), s'') →
      x e ∈ s''.patchedModules) :
    ∀ (es : List (Loader × String × Bool)) (latest : Option Loader)
      (s : PatchState) {latest' : Option Loader} {s₁ : PatchState},
      runLoop step es latest s = (.ok latest', s₁) →
      ∀ e ∈ es, P e → x e ∈ s₁.patchedModules
  | [], _, _, latest', s₁ => by
    intro _ e he
    exact absurd he (List.not_mem_nil e)
  | e :: rest, latest, s, latest', s₁ => by
    simp only [runLoop]
    rcases h : step e s with ⟨r, s'⟩
    cases r with
    | error err => simp
    | ok u =>
      intro hrun e2 he2 hP
      dsimp only at hrun
      rcases List.mem_cons.mp he2 with rfl | he2
      · have hmem : x e2 ∈ s'.patchedModules := by
          cases u
          exact hstep e2 s s' hP h
        have hsub := run_loop_registry_subset step hmono rest (some e2.1) s'
        rw [hrun] at hsub
        exact hsub hmem
      · exact run_loop_marks step hmono x P hstep rest (some e.1) s' hrun e2 he2 hP

lemma ext_unfold (host : Host) (n : Nat) (module : String) (mp : Option String)
    (s : PatchState) :
    _external_recursive_patch host (n + 1) module mp s =
      match host.getLoader (modulePathOf module mp) with
      | .error e => (.error e, s)
      | .ok optL =>
        match runLoop (extStep host n) (host.iterModules optL) none s with
        | (.error e, s') => (.error e, s')
        | (.ok latest, s') =>
          match latest with
          | none => (.ok (), s')
          | some l => _patch_file host module (l.path ++ "/__init__.py") s' := by
  rw [_external_recursive_patch]
  rfl

lemma ext_registry_subset (host : Host) :
    ∀ (fuel : Nat) (module : String) (mp : Option String) (s : PatchState),
      s.patchedModules ⊆
        ((_external_recursive_patch host fuel module mp s).2).patchedModules := by
  intro fuel
  induction fuel with
  | zero =>
    intro module mp s
    rw [_external_recursive_patch]
    exact fun _ h => h
  | succ n ih =>
    intro module mp s
    rw [ext_unfold]
    cases hL : host.getLoader (modulePathOf module mp) with
    | error e => exact fun _ h => h
    | ok optL =>
      dsimp only
      have hmono : ∀ e t, t.patchedModules ⊆ ((extStep host n e t).2).patchedModules := by
        intro e t
        simp only [extStep]
        split
        · exact ih _ _ t
        · exact patch_file_registry_subset host _ _ t
      rcases hR : runLoop (extStep host n) (host.iterModules optL) none s with ⟨r, s₁⟩
      have hs := run_loop_registry_subset (extStep host n) hmono
        (host.iterModules optL) none s
      rw [hR] at hs
      cases r with
      | error e => exact hs
      | ok latest =>
        cases latest with
        | none => exact hs
        | some l =>
          dsimp only
          exact fun y hy =>
            patch_file_registry_subset host module (l.path ++ "/__init__.py") s₁ (hs hy)

lemma subst_targets_supported {n a : String} (hnS : n ∈ SUPPORTED_MODULES)
    (ha : a ∈ substTargets n) : a ∈ SUPPORTED_MODULES := by
  unfold substTargets at ha
  split at ha
  · next h =>
    subst h
    exact absurd hnS (by decide)
  · split at ha
    · rcases List.mem_cons.mp ha with rfl | ha2
      · decide
      · rcases List.mem_cons.mp ha2 with rfl | ha3
        · decide
        · exact absurd ha3 (List.not_mem_nil a)
    · rcases List.mem_cons.mp ha with rfl | ha2
      · exact hnS
      · exact absurd ha2 (List.not_mem_nil a)

lemma resolve_supported {mods : List String}
    (hsup : ∀ x ∈ mods, x ∈ SUPPORTED_MODULES) :
    ∀ a ∈ resolveModules mods, a ∈ SUPPORTED_MODULES := by
  intro a ha
  rcases mem_resolveModules.mp ha with ⟨n, hn, hsub⟩
  exact subst_targets_supported (hsup n hn) hsub

lemma candidate_externals_nil {mods : List String}
    (hsup : ∀ x ∈ mods, x ∈ SUPPORTED_MODULES) :
    candidateExternals mods = [] := by
  unfold candidateExternals
  rw [List.filter_eq_nil_iff]
  intro a ha
  simp only [decide_eq_true_eq, not_not]
  exact List.elem_iff.mpr (resolve_supported hsup a ha)

lemma native_modules_full {mods : List String}
    (hsup : ∀ x ∈ mods, x ∈ SUPPORTED_MODULES) :
    nativeModules mods = resolveModules mods := by
  unfold nativeModules
  rw [List.filter_eq_self]
  intro a ha
  exact List.elem_iff.mpr (resolve_supported hsup a ha)

lemma patch_all_supported (host : Host) (fuel : Nat) {mods : List String}
    (s : PatchState) (hsup : ∀ x ∈ mods, x ∈ SUPPORTED_MODULES) :
    patch host fuel mods false s =
      patchNatives host false (resolveModules mods) s := by
  simp only [patch, candidate_externals_nil hsup, native_modules_full hsup,
    filterValid]
  rw [if_neg (by simp)]
  rcases hN : patchNatives host false (resolveModules mods) s with ⟨r, s'⟩
  have hok := patch_natives_false_ok host (resolveModules mods) s
  rw [hN] at hok
  simp only at hok
  subst hok
  rfl

/-- C1: for every module identifier M already present in the patch registry,
invoking the patch pipeline on M again — native dispatch via `_patch` or
static scan via `_patch_file` — is a no-op: the whole state (registry,
adapter invocations, wrap registrations) is returned unchanged and no error
is raised.  Hence running the pipeline twice on M wraps each callable
exactly once: the second run performs no adapter call and no wrap
registration. -/
theorem already_patched_noop (host : Host) (m f : String) (s : PatchState)
    (hm : m ∈ s.patchedModules) :
    _patch host m s = (.ok (), s) ∧ _patch_file host m f s = (.ok (), s) := by
  have hc : s.patchedModules.contains m = true := List.elem_iff.mpr hm
  constructor
  · simp only [_patch]
    split
    · rfl
    · next h => exact absurd hc h
  · simp only [_patch_file]
    split
    · rfl
    · next h => exact absurd hc h

theorem already_patched_noop_witness :
    _patch hostDemo "requests" ⟨["requests"], [], []⟩ =
      (.ok (), ⟨["requests"], [], []⟩) ∧
    _patch_file hostDemo "requests" "requests/__init__.py"
        ⟨["requests"], [], []⟩ =
      (.ok (), ⟨["requests"], [], []⟩) :=
  already_patched_noop hostDemo "requests" "requests/__init__.py"
    ⟨["requests"], [], []⟩ (by decide)

/-- C2: for every call to `patch(modules_to_patch, raise_errors)`, if after
dependency substitution some identifier is neither in `SUPPORTED_MODULES`
nor accepted by the importability probe, then — provided the probes
themselves complete without raising — `patch` raises exactly one exception
naming all such identifiers jointly, regardless of the value of
`raise_errors`, and the state is returned exactly as it was: no module has
been patched or added to the registry, in particular not the supported or
importable identifiers of the same request. -/
theorem unsupported_preflight_abort (host : Host) (fuel : Nat)
    (mods : List String) (re : Bool) (s : PatchState) (ext : List String)
    (hfv : filterValid host (candidateExternals mods) = .ok ext)
    (hne : (candidateExternals mods).filter (fun m => ¬ ext.contains m) ≠ []) :
    patch host fuel mods re s =
      (.error (.unsupported
        ((candidateExternals mods).filter (fun m => ¬ ext.contains m))), s) := by
  simp only [patch]
  rw [hfv]
  dsimp only
  rw [if_pos hne]

theorem unsupported_preflight_abort_witness :
    patch hostDemo 5 ["requests", "totally-unknown-xyz"] false initState =
      (.error (.unsupported ["totally-unknown-xyz"]), initState) ∧
    "requests" ∉
      ((patch hostDemo 5 ["requests", "totally-unknown-xyz"] false
        initState).2).patchedModules := by
  have h := unsupported_preflight_abort hostDemo 5
    ["requests", "totally-unknown-xyz"] false initState [] rfl (by decide)
  refine ⟨h, ?_⟩
  rw [h]
  decide

/-- C3: for every call to `patch` with `raise_errors = false` over a set of
natively supported identifiers, the call returns without an exception; an
identifier whose adapter import-and-patch succeeds (and in particular is
not prevented by another identifier's adapter failing) ends up marked
patched, while an identifier whose adapter raises and that was not already
patched is not marked patched. -/
theorem best_effort_batch (host : Host) (fuel : Nat) (mods : List String)
    (s : PatchState) (m : String)
    (hsup : ∀ x ∈ mods, x ∈ SUPPORTED_MODULES)
    (hm : m ∈ resolveModules mods) :
    (patch host fuel mods false s).1 = .ok () ∧
    (host.adapterPatch ("aws_xray_sdk.ext." ++ m) = .ok () →
      m ∈ ((patch host fuel mods false s).2).patchedModules) ∧
    (∀ e, host.adapterPatch ("aws_xray_sdk.ext." ++ m) = .error e →
      m ∉ s.patchedModules →
      m ∉ ((patch host fuel mods false s).2).patchedModules) := by
  have hpatch := patch_all_supported host fuel s hsup
  refine ⟨?_, ?_, ?_⟩
  · rw [hpatch]
    exact patch_natives_false_ok host (resolveModules mods) s
  · intro hap
    rw [hpatch]
    exact patch_natives_mem_of_ok host hap (resolveModules mods) s hm
  · intro e hap hnotin
    rw [hpatch]
    intro hmem
    rcases patch_natives_registry_mem host (resolveModules mods) s hmem with h | h
    · exact hnotin h
    · rw [hap] at h
      exact Except.noConfusion h

theorem best_effort_batch_witness :
    (patch hostDemo 5 ["requests", "sqlite3", "mysql"] false initState).1 =
      .ok () ∧
    "requests" ∈ ((patch hostDemo 5 ["requests", "sqlite3", "mysql"] false
      initState).2).patchedModules ∧
    "mysql" ∈ ((patch hostDemo 5 ["requests", "sqlite3", "mysql"] false
      initState).2).patchedModules ∧
    "sqlite3" ∉ ((patch hostDemo 5 ["requests", "sqlite3", "mysql"] false
      initState).2).patchedModules := by
  have h1 := best_effort_batch hostDemo 5 ["requests", "sqlite3", "mysql"]
    initState "requests" (by decide) (by decide)
  have h2 := best_effort_batch hostDemo 5 ["requests", "sqlite3", "mysql"]
    initState "mysql" (by decide) (by decide)
  have h3 := best_effort_batch hostDemo 5 ["requests", "sqlite3", "mysql"]
    initState "sqlite3" (by decide) (by decide)
  exact ⟨h1.1, h1.2.1 rfl, h2.2.1 rfl,
    h3.2.2 (Err.hostErr "ImportError") rfl (by decide)⟩

/-- C4: for every wrapped callable and every argument value, the
replacement `_xray_traced` produced by the span-wrapping adapter opens
exactly one span named after the callable, invokes the original callable
with the original arguments, and either returns the original's return value
unchanged or re-raises the original's raised error unchanged, with the span
closed in both cases (with the error indicator set exactly in the raise
case). -/
theorem wrapper_transparent {α β : Type} (name : String)
    (wrapped : α → CallResult β) (args : α) :
    (_xray_traced name wrapped args).1 = wrapped args ∧
    (_xray_traced name wrapped args).2 =
      [TraceEvent.openSpan name,
       TraceEvent.closeSpan name (wrapped args).isExn] := by
  cases h : wrapped args <;>
    simp [_xray_traced, capture, h, CallResult.isExn]

/-- C5: the target resolver maps `boto3` to the single identifier
`botocore` (never treating `boto3` as its own identifier), maps `pynamodb`
to the two identifiers `botocore` and `pynamodb`, and maps every other name
to itself; it is a pure function (hence deterministic and side-effect
free) and its output is duplicate-free, i.e. a set. -/
theorem resolver_matches_spec (names : List String) :
    (resolveModules names).Nodup ∧
    ∀ m, m ∈ resolveModules names ↔ ∃ n ∈ names, m ∈ substTargets n := by
  constructor
  · exact nodup_foldl_resolveStep names [] List.nodup_nil
  · intro m
    exact mem_resolveModules

/-- C6: for every module identifier M, if a patch attempt for M fails —
the native adapter's import or `patch()` raises in `_patch`, or M's source
file fails to open or parse in `_patch_file` — then M is not added to the
patch registry: the registry is exactly what it was before the failed
attempt. -/
theorem failed_attempt_registry_unchanged (host : Host) (m f : String)
    (s : PatchState) :
    (∀ e s', _patch host m s = (.error e, s') →
      s'.patchedModules = s.patchedModules) ∧
    (∀ e s', _patch_file host m f s = (.error e, s') →
      s'.patchedModules = s.patchedModules) := by
  constructor
  · intro e s' h
    exact patch_error_registry_eq host h
  · intro e s' h
    rw [patch_file_error_state_eq host h]

theorem failed_attempt_registry_unchanged_witness :
    ((_patch hostDemo "sqlite3" initState).2).patchedModules =
      initState.patchedModules ∧
    ((_patch_file hostDemo "mod" "mod.py" initState).2).patchedModules =
      initState.patchedModules := by
  constructor
  · exact (failed_attempt_registry_unchanged hostDemo "sqlite3" "x.py"
      initState).1 (Err.hostErr "ImportError") _ rfl
  · exact (failed_attempt_registry_unchanged hostDemo "mod" "mod.py"
      initState).2 (Err.hostErr "SyntaxError") _ rfl

/-- C7 counterexample: on a host presenting a module `somepkg` that has a
loader but no submodules at all, a generic recursive patch pass on
`somepkg` completes without error, scans nothing, and leaves the registry
unchanged — `somepkg` is never added, contradicting the claim that M is
always marked after its own file is scanned, including when M has no
submodules. -/
theorem ext_empty_package_not_marked :
    _external_recursive_patch hostEmptyPkg 1 "somepkg" none initState =
      (.ok (), initState) ∧
    "somepkg" ∉
      ((_external_recursive_patch hostEmptyPkg 1 "somepkg" none
        initState).2).patchedModules :=
  ⟨rfl, by decide⟩

/-- C7 (amended): for every external module identifier M, a generic
recursive patch pass on M that returns without error scans the entries
yielded by the submodule iteration — recursing into each entry flagged as a
package and statically scanning the file of each plain-module entry, which
is thereby marked under its own distinct identifier
`<loader path>.<name>` — and, *provided the iteration yielded at least one
entry*, finally scans M's own `__init__` file and adds M itself to the
registry after that scan (this also covers an `__init__` defining no
functions or classes); when the iteration yields no entries at all, M's own
file is not scanned and M is not added. -/
theorem ext_marks_after_scan (host : Host) (fuel : Nat) (module : String)
    (mp : Option String) (s : PatchState) {optL : Option Loader}
    {s' : PatchState}
    (hL : host.getLoader (modulePathOf module mp) = .ok optL)
    (hne : host.iterModules optL ≠ [])
    (hrun : _external_recursive_patch host (fuel + 1) module mp s =
      (.ok (), s')) :
    module ∈ s'.patchedModules ∧
    ∀ e ∈ host.iterModules optL, e.2.2 = false →
      (e.1.path ++ "." ++ e.2.1) ∈ s'.patchedModules := by
  rw [ext_unfold, hL] at hrun
  dsimp only at hrun
  rcases hR : runLoop (extStep host fuel) (host.iterModules optL) none s
    with ⟨r, s₁⟩
  rw [hR] at hrun
  cases r with
  | error e =>
    dsimp only at hrun
    exact absurd (congrArg Prod.fst hrun) (by simp)
  | ok latest =>
    dsimp only at hrun
    obtain ⟨e0, es, hE⟩ := List.exists_cons_of_ne_nil hne
    rw [hE] at hR
    obtain ⟨l, rfl⟩ := run_loop_nonempty_latest (extStep host fuel) hR
    dsimp only at hrun
    have hmono : ∀ e t, t.patchedModules ⊆
        ((extStep host fuel e t).2).patchedModules := by
      intro e t
      simp only [extStep]
      split
      · exact ext_registry_subset host fuel _ _ t
      · exact patch_file_registry_subset host _ _ t
    have hsub : s₁.patchedModules ⊆ s'.patchedModules := by
      have h := patch_file_registry_subset host module
        (l.path ++ "/__init__.py") s₁
      rw [hrun] at h
      exact h
    constructor
    · exact patch_file_ok_mem host hrun
    · intro e he hfalse
      rw [hE] at he
      refine hsub (run_loop_marks (extStep host fuel) hmono
        (fun e => e.1.path ++ "." ++ e.2.1) (fun e => e.2.2 = false)
        ?_ (e0 :: es) none s hR e he hfalse)
      intro e2 t s'' hP hstep
      simp only [extStep, hP] at hstep
      rw [if_neg (by simp)] at hstep
      exact patch_file_ok_mem host hstep

theorem ext_marks_after_scan_witness :
    "pkg" ∈ ((_external_recursive_patch hostPkg (1 + 1) "pkg" (some "pkg")
      initState).2).patchedModules ∧
    "pkg.sub" ∈ ((_external_recursive_patch hostPkg (1 + 1) "pkg" (some "pkg")
      initState).2).patchedModules := by
  have hrun : _external_recursive_patch hostPkg (1 + 1) "pkg" (some "pkg")
      initState =
      (.ok (), ⟨["pkg.sub", "pkg"], [], [("pkg.sub", "f"), ("pkg", "f")]⟩) := by
    rw [ext_unfold]
    rfl
  have h := @ext_marks_after_scan hostPkg 1 "pkg" (some "pkg") initState
    (some ⟨"pkg"⟩)
    ⟨["pkg.sub", "pkg"], [], [("pkg.sub", "f"), ("pkg", "f")]⟩
    rfl (by decide) hrun
  rw [hrun]
  exact ⟨h.1, h.2 (⟨"pkg"⟩, "sub", false) (by decide) rfl⟩

/-- C8 counterexample: the importability probe `_is_valid_import` has no
exception handler, so on a host whose module-location machinery raises the
probe does not return a boolean — the error escapes the probe and escapes
`patch` itself, and the name is never classified as unsupported. -/
theorem probe_error_escapes :
    _is_valid_import hostProbeRaises "x" = .error (.hostErr "boom") ∧
    patch hostProbeRaises 1 ["unknownmod"] true initState =
      (.error (.hostErr "boom"), initState) :=
  ⟨rfl, rfl⟩

/-- C8 (amended): the importability probe returns the truthiness of the
loader lookup when the lookup completes — `true` on a loader, `false` on
`None` (so a name whose lookup completes with no loader is classified
unsupported) — but when the host's module-location machinery raises during
the probe, the error propagates unchanged out of the probe, and out of
`patch`, with the state untouched and the name never classified. -/
theorem probe_propagates_loader_result (host : Host) (path : String) :
    (∀ l, host.getLoader path = .ok l →
      _is_valid_import host path = .ok l.isSome) ∧
    (∀ e, host.getLoader path = .error e →
      _is_valid_import host path = .error e) ∧
    (∀ fuel mods re s e,
      filterValid host (candidateExternals mods) = .error e →
      patch host fuel mods re s = (.error e, s)) := by
  refine ⟨?_, ?_, ?_⟩
  · intro l h
    simp [_is_valid_import, h]
  · intro e h
    simp [_is_valid_import, h]
  · intro fuel mods re s e h
    simp only [patch]
    rw [h]

theorem probe_propagates_loader_result_witness :
    _is_valid_import hostProbeRaises "y" = .error (.hostErr "boom") ∧
    patch hostProbeRaises 3 ["othermod"] false initState =
      (.error (.hostErr "boom"), initState) := by
  refine ⟨?_, ?_⟩
  · exact (probe_propagates_loader_result hostProbeRaises "y").2.1
      (Err.hostErr "boom") rfl
  · exact (probe_propagates_loader_result hostProbeRaises "y").2.2
      3 ["othermod"] false initState (Err.hostErr "boom") rfl

/-- C10: in the static-source-scan visitor, the enclosing-class context is
reset to no-class after a class definition is visited — for any prior
context, not restored to it; consequently the methods of a class nested
inside another class are registered qualified only by the inner class's
name, and every method of the outer class whose definition appears after
the nested class is registered under its bare function name with no class
qualifier. -/
theorem visitor_class_context_reset (module outer inner cname : String)
    (cur : Option String) (cbody ibody post : List PyStmt) :
    (visitStmt module cur (PyStmt.classDef cname cbody)).1 = none ∧
    (∀ f fb, visitStmt module (some inner) (PyStmt.functionDef f fb) =
      (some inner, [(module, inner ++ "." ++ f)])) ∧
    (∀ f fb, visitStmt module none (PyStmt.functionDef f fb) =
      (none, [(module, f)])) ∧
    (visitStmt module (some outer) (PyStmt.classDef inner ibody)).2 =
      (visitStmts module (some inner) ibody).2 ∧
    (visitStmt module none
        (PyStmt.classDef outer (PyStmt.classDef inner ibody :: post))).2 =
      (visitStmts module (some inner) ibody).2 ++
        (visitStmts module none post).2 := by
  refine ⟨?_, fun f fb => rfl, fun f fb => rfl, rfl, ?_⟩
  · simp [visitStmt]
  · simp [visitStmt, visitStmts]
